import Mathlib

/-!
Verification development for the `haiper_api` PDF-processing service.

The subject of the claims is the `/api/workflow/rfil` endpoint
(`process_rfil_workflow` in `app.py`).  The endpoint is shallowly embedded
as a pure Lean function from an environment describing the request and the
outcomes of the external library calls it makes (PyPDF2 parsing, the
first-page read probe, `json.loads` on form-field values, the extraction
routine, and `os.remove`) to the HTTP response together with a trace of
validation checks and temp-storage side effects.

The extraction routine `process_pdf_end_to_end` lives in
`src/functions/rfil_utils.py`, which is not part of the available sources;
where a claim depends on its behaviour it is modelled from the spec
(section 4.3), and those definitions say so in their doc comments.
-/

namespace Haiper

/-- Value produced by a successful `json.loads` on a form-field string.
The structure of the parsed value is irrelevant to the endpoint, which
forwards it unchanged; a small JSON-like inductive represents it. -/
inductive PyJson where
  | null : PyJson
  | boolean : Bool → PyJson
  | number : Int → PyJson
  | jstring : String → PyJson
  | jarray : List PyJson → PyJson
  | jobject : List (String × PyJson) → PyJson

/-- One value of the multipart form, as the endpoint loop sees it:
either an `UploadFile` (skipped by the loop) or a string field.  A string
field carries the outcome of `json.loads` on it — `some` parsed value, or
`none` for `json.JSONDecodeError` — since `json` is an external library and
its behaviour on the field's text is an input to the embedding. -/
inductive FormEntry where
  | file : FormEntry
  | text : String → Option PyJson → FormEntry

/-- Entry of the `additional_data` dictionary built by the endpoint:
the parsed JSON value when `json.loads` succeeded, otherwise the original
string unchanged. -/
inductive MetaValue where
  | parsed : PyJson → MetaValue
  | plain : String → MetaValue

/-- One page of the submitted PDF, described by what the external
libraries would yield for it: the text of its native text layer (empty
string when the page has no extractable text) and the text the OCR engine
would produce if the page is rasterised and OCRed. -/
structure Page where
  nativeText : String
  ocrText : String
deriving DecidableEq

/-- Outcome of the first-page read probe
`pdf_reader.pages[0].extract_text()`: success, or the
`PyPDF2.errors.PdfReadError` the library raises when the page's content
stream cannot be decoded. -/
inductive ProbeOutcome where
  | ok : ProbeOutcome
  | pdfReadError : ProbeOutcome
deriving DecidableEq

/-- Outcome of `PyPDF2.PdfReader(pdf_file)` on the uploaded bytes:
a parsed document (its page list) together with the read-probe outcome for
its first page, or the `PdfReadError` raised when the bytes are not a
parseable PDF container. -/
inductive ParseOutcome where
  | ok : List Page → ProbeOutcome → ParseOutcome
  | pdfReadError : ParseOutcome
deriving DecidableEq

/-- Outcome of an external call that either succeeds or raises a generic
exception carrying a message (`str(e)`). -/
inductive CallOutcome where
  | ok : CallOutcome
  | raises : String → CallOutcome
deriving DecidableEq

/-- Environment of one request: the request data plus the outcomes of the
external calls the handler makes.  `fileId` is the `uuid.uuid4()` value;
`extraction` is whether `process_pdf_end_to_end` returns or raises;
`removal` is whether `os.remove(temp_file_path)` succeeds or raises. -/
structure Env where
  filename : List Char
  form : List (String × FormEntry)
  parse : ParseOutcome
  fileId : String
  extraction : CallOutcome
  removal : CallOutcome

/-- Observable side-effect/validation trace of one request.  Check events
record each validation step and whether it passed; `makeTempDir` and
`writeTempFile` are the Transient Store allocations
(`os.makedirs(temp_dir, exist_ok=True)` and writing
`temp_files/<file_id>.pdf`); `runExtraction` records the invocation of
`process_pdf_end_to_end` with the `ocr_language` argument it was given;
`removeTempFile` records a successful `os.remove` of the temp file. -/
inductive Event where
  | checkExtension : Bool → Event
  | checkParse : Bool → Event
  | checkPageCount : Bool → Event
  | checkProbe : Bool → Event
  | makeTempDir : Event
  | writeTempFile : String → Event
  | runExtraction : String → Event
  | removeTempFile : String → Event
deriving DecidableEq

/-- Python `str.lower()` on the filename (ASCII-relevant part). -/
def pyLower (s : List Char) : List Char := s.map Char.toLower

/-- Characters of the literal suffix `'.pdf'`. -/
def pdfSuffix : List Char := String.toList ".pdf"

/-- Python `s.endswith(suf)`. -/
def endswith (s suf : List Char) : Bool := decide (suf <:+ s)

/-- The endpoint's extension pre-check:
`rfil.filename.lower().endswith('.pdf')`. -/
def isPdfName (name : List Char) : Bool := endswith (pyLower name) pdfSuffix

/-- Update-or-append on the association list modelling the Python dict
`additional_data`: assignment `d[k] = v` replaces the value at an existing
key in place and otherwise appends the pair at the end (Python dicts keep
insertion order). -/
def upsert : List (String × MetaValue) → String → MetaValue →
    List (String × MetaValue)
  | [], k, v => [(k, v)]
  | (k0, v0) :: rest, k, v =>
    if k0 = k then (k, v) :: rest else (k0, v0) :: upsert rest k v

/-- Dictionary lookup on the association list. -/
def lookupMeta : List (String × MetaValue) → String → Option MetaValue
  | [], _ => none
  | (k, v) :: rest, n => if k = n then some v else lookupMeta rest n

/-- Value stored for one string form field: the parsed JSON value when
`json.loads` succeeded, the original string on `JSONDecodeError`. -/
def metaOfLoads (v : String) (loads : Option PyJson) : MetaValue :=
  match loads with
  | some j => .parsed j
  | none => .plain v

/-- Body of the form-processing loop of the endpoint, for one field:
skip the `rfil` field and `UploadFile` values; for a string field store the
`json.loads` value on success and the original string on
`JSONDecodeError`. -/
def addField (acc : List (String × MetaValue)) :
    String × FormEntry → List (String × MetaValue)
  | (_, .file) => acc
  | (name, .text v loads) =>
    if name = "rfil" then acc
    else upsert acc name (metaOfLoads v loads)

/-- The form-processing loop of the endpoint: fold `addField` over the
form's fields, starting from the empty dictionary. -/
def additionalData (form : List (String × FormEntry)) :
    List (String × MetaValue) :=
  form.foldl addField []

/-- The `additional_data` entry of the success body: the endpoint includes
the dictionary only when it is non-empty (`if additional_data:`). -/
def adOption (form : List (String × FormEntry)) :
    Option (List (String × MetaValue)) :=
  match additionalData form with
  | [] => none
  | _ => some (additionalData form)

/-- Per-page record of the extraction routine.
Modelled from the spec: `src/functions/rfil_utils.py` is absent from the
sources; section 3 gives a PageResult as page index, extraction method
used, extracted text, and the language hint applied. -/
structure PageResult where
  index : Nat
  method : String
  text : String
  language : String
deriving DecidableEq

/-- Usability threshold for the native text layer.
Modelled from the spec: section 4.3 falls back to OCR when the native
text is "empty or shorter than a minimal usability threshold (e.g., fewer
than a small fixed number of characters)"; the exact number is not fixed
by the spec, so a representative small value is used.  The phrasing makes
the threshold larger than one character (otherwise the clause would be
redundant with emptiness). -/
def min_usable_text_len : Nat := 5

/-- Decision of section 4.3 step 2: fall back to OCR when the native text
is empty or shorter than the usability threshold. -/
def needsOcr (p : Page) : Bool :=
  p.nativeText = "" || p.nativeText.length < min_usable_text_len

/-- Per-page loop of the extraction routine, carrying the current page
index.  Modelled from the spec, section 4.3: for each page in order,
attempt native extraction; on an empty or below-threshold yield, rasterise
and OCR with the supplied language hint; record which method produced the
final text. -/
def extractPages (lang : String) : Nat → List Page → List PageResult
  | _, [] => []
  | i, p :: rest =>
    (if needsOcr p then
      { index := i, method := "ocr", text := p.ocrText, language := lang }
    else
      { index := i, method := "native", text := p.nativeText, language := lang })
      :: extractPages lang (i + 1) rest

/-- Result of the extraction routine: status plus the ordered per-page
records.  Modelled from the spec, section 3 (ProcessingResult). -/
structure ProcessingResult where
  status : String
  page_results : List PageResult
deriving DecidableEq

/-- The extraction routine invoked by the endpoint.
Modelled from the spec: `src/functions/rfil_utils.py` is absent from the
sources; sections 4.3 and 8 describe per-page native extraction with OCR
fallback, one PageResult per page in physical page order.  Engine
unavailability and the sidecar text file are not needed by any claim
settled here and are left out of the model; a run that raises is instead
represented by the environment's `extraction` outcome. -/
def process_pdf_end_to_end (pages : List Page) (ocr_language : String) :
    ProcessingResult :=
  { status := "success", page_results := extractPages ocr_language 0 pages }

/-- Body of the success `JSONResponse` built by the endpoint (the
wall-clock `processing_time` field is not modelled). -/
structure SuccessBody where
  statusStr : String
  message : String
  filename : List Char
  file_id : String
  pages : Nat
  process_results : ProcessingResult
  additional_data : Option (List (String × MetaValue))

/-- Response of the endpoint: a raised `HTTPException`, an error
`JSONResponse` with a status code and message, or the success
`JSONResponse`. -/
inductive Response where
  | httpError : Nat → String → Response
  | errorJson : Nat → String → Response
  | success : SuccessBody → Response

/-- HTTP status code of a response (a success `JSONResponse` is 200). -/
def statusCode : Response → Nat
  | .httpError s _ => s
  | .errorJson s _ => s
  | .success _ => 200

/-- Shallow embedding of the endpoint `process_rfil_workflow` in
`app.py`.  Mirrors the handler's control flow: build `additional_data`
from the form; reject a non-`.pdf` filename with `HTTPException(400)`;
parse with PyPDF2, answering 400 for a `PdfReadError`, for a page count
below one, and for a `PdfReadError` from the first-page read probe; then
create the temp directory, write `temp_files/<file_id>.pdf`, run
`process_pdf_end_to_end(temp_file_path, ocr_language='bul+eng',
save_text=True)`, delete the temp file and answer 200.  A generic
exception from extraction or from `os.remove` reaches the outer
`except Exception` handler, which answers 500; the temp file is deleted
only on the success path. -/
def process_rfil_workflow (env : Env) : Response × List Event :=
  let adOpt := adOption env.form
  if isPdfName env.filename = false then
    (.httpError 400 "Only PDF files are accepted", [.checkExtension false])
  else
    match env.parse with
    | .pdfReadError =>
      (.errorJson 400 "The file is not a valid PDF",
       [.checkExtension true, .checkParse false])
    | .ok pages probe =>
      if pages.length < 1 then
        (.errorJson 400 "The PDF file is empty or corrupt",
         [.checkExtension true, .checkParse true, .checkPageCount false])
      else
        match probe with
        | .pdfReadError =>
          (.errorJson 400 "The file is not a valid PDF",
           [.checkExtension true, .checkParse true, .checkPageCount true,
            .checkProbe false])
        | .ok =>
          let pre : List Event :=
            [.checkExtension true, .checkParse true, .checkPageCount true,
             .checkProbe true, .makeTempDir, .writeTempFile env.fileId,
             .runExtraction "bul+eng"]
          match env.extraction with
          | .raises msg =>
            (.errorJson 500 ("An error occurred: " ++ msg), pre)
          | .ok =>
            let results := process_pdf_end_to_end pages "bul+eng"
            match env.removal with
            | .raises msg =>
              (.errorJson 500 ("An error occurred: " ++ msg), pre)
            | .ok =>
              (.success
                { statusStr := "success"
                  message := "PDF file has been processed successfully"
                  filename := env.filename
                  file_id := env.fileId
                  pages := pages.length
                  process_results := results
                  additional_data := adOpt },
               pre ++ [.removeTempFile env.fileId])

/-- Event classifier: the four validation-check events. -/
def isCheckEvent : Event → Bool
  | .checkExtension _ => true
  | .checkParse _ => true
  | .checkPageCount _ => true
  | .checkProbe _ => true
  | _ => false

/-- Event classifier: Transient Store allocations (creating the temp
directory or writing the temp file). -/
def isStorageEvent : Event → Bool
  | .makeTempDir => true
  | .writeTempFile _ => true
  | _ => false

/-- Event classifier: a write of the temp file. -/
def isWriteTemp : Event → Bool
  | .writeTempFile _ => true
  | _ => false

/-- Event classifier: a successful removal of the temp file. -/
def isRemoveTemp : Event → Bool
  | .removeTempFile _ => true
  | _ => false

/-- The temp file `temp_files/<file_id>.pdf` still exists when the request
completes: it was written during the request and never removed. -/
def tempFileLeaked (t : List Event) : Bool :=
  t.any isWriteTemp && !(t.any isRemoveTemp)

/-- The check sequence recorded when all four validation steps pass. -/
def fullPassChecks : List Event :=
  [.checkExtension true, .checkParse true, .checkPageCount true,
   .checkProbe true]

/-- The check sequences the handler can record: the four checks run in the
order extension, structural parse, page count, first-page probe, stopping
at the first failure. -/
def allowedCheckSeqs : List (List Event) :=
  [[.checkExtension false],
   [.checkExtension true, .checkParse false],
   [.checkExtension true, .checkParse true, .checkPageCount false],
   [.checkExtension true, .checkParse true, .checkPageCount true,
    .checkProbe false],
   fullPassChecks]

/-- A page with a long native text layer (above the usability threshold). -/
def pageLong : Page := { nativeText := "hello world text", ocrText := "" }

/-- A scanned page: empty native text layer, OCR would yield text. -/
def pageScan : Page := { nativeText := "", ocrText := "scanned page text" }

/-- A page with a non-empty native text layer below the usability
threshold. -/
def pageShort : Page := { nativeText := "ab", ocrText := "ocr output" }

/-- A well-behaved request: valid filename, two-page parseable PDF,
extraction and removal succeed, two extra form fields (one JSON-parseable,
one not). -/
def envOk : Env :=
  { filename := String.toList "report.pdf"
    form := [("rfil", .file), ("department", .text "ops" none),
             ("tags", .text "[1, 2]" (some (.jarray [.number 1, .number 2])))]
    parse := .ok [pageLong, pageScan] .ok
    fileId := "id-1"
    extraction := .ok
    removal := .ok }

/-- A request whose filename does not end in `.pdf`. -/
def envBadExt : Env := { envOk with filename := String.toList "notes.txt" }

/-- A request whose bytes do not parse as a PDF container. -/
def envMalformed : Env := { envOk with parse := .pdfReadError }

/-- A request whose PDF parses with zero pages. -/
def envEmptyPdf : Env := { envOk with parse := .ok [] .ok }

/-- A request whose first-page read probe raises `PdfReadError`. -/
def envUnreadable : Env :=
  { envOk with parse := .ok [pageLong] .pdfReadError }

/-- A valid request for which `process_pdf_end_to_end` raises. -/
def envExtractionRaises : Env :=
  { envOk with extraction := .raises "ocr engine failure" }

/-- A valid request for which `os.remove` of the temp file raises. -/
def envRemovalRaises : Env :=
  { envOk with removal := .raises "permission denied" }

/-- A valid request whose filename uses an upper-case `.PDF` suffix. -/
def envUpcaseName : Env :=
  { envOk with filename := String.toList "REPORT.PDF" }

/-- A valid request in which the caller supplies a language through an
extra form field. -/
def envLangField : Env :=
  { envOk with form := [("rfil", .file), ("ocr_language", .text "eng" none)] }

/-- C10: the filename extension pre-check is case-insensitive — for every
submission whose filename ends with any case variant of `.pdf`, the
extension check passes and validation proceeds to the structural parse
(a `checkParse` step is reached on every such request). -/
theorem pdf_extension_check_is_case_insensitive
    (env : Env) (pre suf : List Char)
    (hname : env.filename = pre ++ suf)
    (hsuf : pyLower suf = pdfSuffix) :
    isPdfName env.filename = true ∧
    ∃ b, Event.checkParse b ∈ (process_rfil_workflow env).2 := by
  have hpdf : isPdfName env.filename = true := by
    rw [hname]
    unfold isPdfName endswith pyLower
    unfold pyLower at hsuf
    rw [List.map_append, hsuf]
    simp [List.suffix_append]
  refine ⟨hpdf, ?_⟩
  obtain ⟨fn, form, parse, fid, ex, rm⟩ := env
  simp only [] at hpdf
  cases parse with
  | pdfReadError => exact ⟨false, by simp [process_rfil_workflow, hpdf]⟩
  | ok pages probe =>
    by_cases hl : pages.length < 1
    · exact ⟨true, by simp [process_rfil_workflow, hpdf, hl]⟩
    · cases probe with
      | pdfReadError => exact ⟨true, by simp [process_rfil_workflow, hpdf, hl]⟩
      | ok =>
        cases ex with
        | raises msg => exact ⟨true, by simp [process_rfil_workflow, hpdf, hl]⟩
        | ok =>
          cases rm with
          | raises msg =>
            exact ⟨true, by simp [process_rfil_workflow, hpdf, hl]⟩
          | ok => exact ⟨true, by simp [process_rfil_workflow, hpdf, hl]⟩

/-- Witness for the case-insensitivity theorem at the concrete filename
`REPORT.PDF`. -/
theorem pdf_extension_check_case_insensitive_witness :
    isPdfName envUpcaseName.filename = true ∧
    ∃ b, Event.checkParse b ∈ (process_rfil_workflow envUpcaseName).2 :=
  pdf_extension_check_is_case_insensitive envUpcaseName
    (String.toList "REPORT") (String.toList ".PDF") (by decide) (by decide)

/-- C4: on every request the validation checks run in the order
extension, structural parse, page count, first-page probe, stopping at the
first failure; and whenever the Transient Store is touched at all, the
trace starts with all four checks passing and no further check follows —
no temporary storage is touched until validation has fully succeeded. -/
theorem validation_order_and_no_early_storage (env : Env) :
    (process_rfil_workflow env).2.filter isCheckEvent ∈ allowedCheckSeqs ∧
    ((process_rfil_workflow env).2.any isStorageEvent = true →
      ∃ rest, (process_rfil_workflow env).2 = fullPassChecks ++ rest ∧
        rest.all (fun e => !isCheckEvent e) = true) := by
  obtain ⟨fn, form, parse, fid, ex, rm⟩ := env
  by_cases hpdf : isPdfName fn = false
  · constructor
    · simp [process_rfil_workflow, hpdf, allowedCheckSeqs, isCheckEvent]
    · intro h
      simp [process_rfil_workflow, hpdf, isStorageEvent] at h
  · rw [Bool.not_eq_false] at hpdf
    cases parse with
    | pdfReadError =>
      constructor
      · simp [process_rfil_workflow, hpdf, allowedCheckSeqs, isCheckEvent]
      · intro h
        simp [process_rfil_workflow, hpdf, isStorageEvent] at h
    | ok pages probe =>
      by_cases hl : pages.length < 1
      · constructor
        · simp [process_rfil_workflow, hpdf, hl, allowedCheckSeqs, isCheckEvent]
        · intro h
          simp [process_rfil_workflow, hpdf, hl, isStorageEvent] at h
      · cases probe with
        | pdfReadError =>
          constructor
          · simp [process_rfil_workflow, hpdf, hl, allowedCheckSeqs,
              isCheckEvent]
          · intro h
            simp [process_rfil_workflow, hpdf, hl, isStorageEvent] at h
        | ok =>
          cases ex with
          | raises msg =>
            refine ⟨by simp [process_rfil_workflow, hpdf, hl, allowedCheckSeqs,
              isCheckEvent, fullPassChecks], fun _ => ?_⟩
            refine ⟨[.makeTempDir, .writeTempFile fid,
              .runExtraction "bul+eng"], ?_, by simp [isCheckEvent]⟩
            simp [process_rfil_workflow, hpdf, hl, fullPassChecks]
          | ok =>
            cases rm with
            | raises msg =>
              refine ⟨by simp [process_rfil_workflow, hpdf, hl,
                allowedCheckSeqs, isCheckEvent, fullPassChecks],
                fun _ => ?_⟩
              refine ⟨[.makeTempDir, .writeTempFile fid,
                .runExtraction "bul+eng"], ?_, by simp [isCheckEvent]⟩
              simp [process_rfil_workflow, hpdf, hl, fullPassChecks]
            | ok =>
              refine ⟨by simp [process_rfil_workflow, hpdf, hl,
                allowedCheckSeqs, isCheckEvent, fullPassChecks],
                fun _ => ?_⟩
              refine ⟨[.makeTempDir, .writeTempFile fid,
                .runExtraction "bul+eng", .removeTempFile fid], ?_,
                by simp [isCheckEvent]⟩
              simp [process_rfil_workflow, hpdf, hl, fullPassChecks]

/-- Witness for the validation-order theorem at the well-behaved request,
where storage is touched and the trace begins with the four passing
checks. -/
theorem validation_order_witness :
    (process_rfil_workflow envOk).2.any isStorageEvent = true ∧
    ∃ rest, (process_rfil_workflow envOk).2 = fullPassChecks ++ rest ∧
      rest.all (fun e => !isCheckEvent e) = true :=
  ⟨by decide, (validation_order_and_no_early_storage envOk).2 (by decide)⟩

/-- C2: a submission whose filename does not end with `.pdf`, one whose
bytes fail to parse as a PDF container, and one whose bytes parse to zero
pages are each rejected with a distinct 4xx response (an
`HTTPException(400)` for the extension, distinct 400 JSON error messages
for the other two), and on every such request no temporary file or
directory is created. -/
theorem invalid_submissions_rejected_before_storage (env : Env) :
    (isPdfName env.filename = false →
      (process_rfil_workflow env).1 =
        .httpError 400 "Only PDF files are accepted") ∧
    (isPdfName env.filename = true → env.parse = .pdfReadError →
      (process_rfil_workflow env).1 =
        .errorJson 400 "The file is not a valid PDF") ∧
    (∀ probe, isPdfName env.filename = true → env.parse = .ok [] probe →
      (process_rfil_workflow env).1 =
        .errorJson 400 "The PDF file is empty or corrupt") ∧
    ((isPdfName env.filename = false ∨ env.parse = .pdfReadError ∨
        (∃ probe, env.parse = .ok [] probe)) →
      (process_rfil_workflow env).2.any isStorageEvent = false) := by
  obtain ⟨fn, form, parse, fid, ex, rm⟩ := env
  simp only []
  refine ⟨?_, ?_, ?_, ?_⟩
  · intro hpdf
    simp [process_rfil_workflow, hpdf]
  · intro hpdf hparse
    subst hparse
    simp [process_rfil_workflow, hpdf]
  · intro probe hpdf hparse
    subst hparse
    simp [process_rfil_workflow, hpdf]
  · intro h
    rcases h with hpdf | hparse | ⟨probe, hparse⟩
    · simp [process_rfil_workflow, hpdf, isStorageEvent]
    · subst hparse
      by_cases hpdf : isPdfName fn = false <;>
        simp [process_rfil_workflow, hpdf, isStorageEvent]
    · subst hparse
      by_cases hpdf : isPdfName fn = false <;>
        simp [process_rfil_workflow, hpdf, isStorageEvent]

/-- Witness for the rejection theorem: the non-PDF-named submission gets
the 400 `HTTPException` and its trace holds no storage event, and the
zero-page submission gets the distinct empty-or-corrupt 400 with no
storage event either. -/
theorem invalid_submission_rejection_witness :
    (process_rfil_workflow envBadExt).1 =
      .httpError 400 "Only PDF files are accepted" ∧
    (process_rfil_workflow envBadExt).2.any isStorageEvent = false ∧
    (process_rfil_workflow envEmptyPdf).1 =
      .errorJson 400 "The PDF file is empty or corrupt" ∧
    (process_rfil_workflow envEmptyPdf).2.any isStorageEvent = false :=
  ⟨(invalid_submissions_rejected_before_storage envBadExt).1 (by decide),
   (invalid_submissions_rejected_before_storage envBadExt).2.2.2
     (Or.inl (by decide)),
   (invalid_submissions_rejected_before_storage envEmptyPdf).2.2.1
     ProbeOutcome.ok (by decide) (by decide),
   (invalid_submissions_rejected_before_storage envEmptyPdf).2.2.2
     (Or.inr (Or.inr ⟨ProbeOutcome.ok, by decide⟩))⟩

/-- C3: every validation failure — wrong file type, malformed PDF
container, zero-page PDF, or a first page whose content stream cannot be
decoded (the read probe raising `PdfReadError`) — produces a response with
status code 400, a client error, never a 5xx server error. -/
theorem validation_failures_are_client_errors (env : Env)
    (h : isPdfName env.filename = false ∨ env.parse = .pdfReadError ∨
      (∃ probe, env.parse = .ok [] probe) ∨
      (∃ pages, env.parse = .ok pages .pdfReadError)) :
    statusCode (process_rfil_workflow env).1 = 400 := by
  obtain ⟨fn, form, parse, fid, ex, rm⟩ := env
  simp only [] at h
  by_cases hpdf : isPdfName fn = false
  · simp [process_rfil_workflow, hpdf, statusCode]
  · rcases h with h | hparse | ⟨probe, hparse⟩ | ⟨pages, hparse⟩
    · exact absurd h hpdf
    · subst hparse
      simp [process_rfil_workflow, hpdf, statusCode]
    · subst hparse
      simp [process_rfil_workflow, hpdf, statusCode]
    · subst hparse
      by_cases hl : pages.length < 1 <;>
        simp [process_rfil_workflow, hpdf, hl, statusCode]

/-- Witness for the client-error theorem at the unreadable-first-page
submission. -/
theorem validation_failure_client_error_witness :
    statusCode (process_rfil_workflow envUnreadable).1 = 400 :=
  validation_failures_are_client_errors envUnreadable
    (Or.inr (Or.inr (Or.inr ⟨[pageLong], by decide⟩)))

/-- The per-page loop yields exactly one record per page. -/
theorem extractPages_length (lang : String) (ps : List Page) :
    ∀ i, (extractPages lang i ps).length = ps.length := by
  induction ps with
  | nil => intro i; simp [extractPages]
  | cons p rest ih => intro i; simp [extractPages, ih (i + 1)]

/-- The indices recorded by the per-page loop are consecutive from the
starting index. -/
theorem extractPages_map_index (lang : String) (ps : List Page) :
    ∀ i, (extractPages lang i ps).map PageResult.index =
      List.range' i ps.length := by
  induction ps with
  | nil => intro i; simp [extractPages]
  | cons p rest ih =>
    intro i
    simp [extractPages, List.range'_succ, apply_ite PageResult.index,
      ih (i + 1)]

/-- The method recorded for each page is determined by the usability rule
on that page's native text. -/
theorem extractPages_map_method (lang : String) (ps : List Page) :
    ∀ i, (extractPages lang i ps).map PageResult.method =
      ps.map (fun p => if needsOcr p then "ocr" else "native") := by
  induction ps with
  | nil => intro i; simp [extractPages]
  | cons p rest ih =>
    intro i
    simp [extractPages, apply_ite PageResult.method, ih (i + 1)]

/-- C5: on every successful response for a valid N-page PDF, the reported
page count equals N (the parsed document's page count) and equals the
number of PageResult entries, and the entries appear in ascending
page-index order (their indices are `0, 1, ..., N-1`). -/
theorem success_page_count_consistency (env : Env) (pages : List Page)
    (hext : isPdfName env.filename = true)
    (hparse : env.parse = .ok pages .ok)
    (hnp : pages ≠ [])
    (hex : env.extraction = .ok)
    (hrm : env.removal = .ok) :
    ∃ body, (process_rfil_workflow env).1 = .success body ∧
      body.pages = pages.length ∧
      body.process_results.page_results.length = pages.length ∧
      body.process_results.page_results.map PageResult.index =
        List.range pages.length := by
  obtain ⟨fn, form, parse, fid, ex, rm⟩ := env
  subst hparse hex hrm
  have hl : ¬ pages.length < 1 := by
    simp [Nat.lt_one_iff, List.length_eq_zero, hnp]
  refine ⟨{ statusStr := "success"
            message := "PDF file has been processed successfully"
            filename := fn
            file_id := fid
            pages := pages.length
            process_results := process_pdf_end_to_end pages "bul+eng"
            additional_data := adOption form }, ?_, rfl, ?_, ?_⟩
  · simp [process_rfil_workflow, hext, hl]
  · simp [process_pdf_end_to_end, extractPages_length]
  · simp [process_pdf_end_to_end, extractPages_map_index,
      List.range_eq_range']

/-- Witness for the page-count consistency theorem at the two-page
well-behaved request. -/
theorem success_page_count_witness :
    ∃ body, (process_rfil_workflow envOk).1 = Response.success body ∧
      body.pages = 2 ∧
      body.process_results.page_results.length = 2 ∧
      body.process_results.page_results.map PageResult.index =
        List.range 2 :=
  success_page_count_consistency envOk [pageLong, pageScan]
    (by decide) rfl (by decide) rfl rfl

/-- C1: the claim fails on the code.  For a valid submission whose
extraction call raises, the handler answers 500 and the temporary file
written for the request is never removed: in `app.py` the
`os.remove(temp_file_path)` call lies on the success path only, so the
uncaught-exception path exits with the Transient Store location still in
place. -/
theorem extraction_failure_leaks_temp_file :
    statusCode (process_rfil_workflow envExtractionRaises).1 = 500 ∧
    tempFileLeaked (process_rfil_workflow envExtractionRaises).2 = true := by
  decide

/-- C7, counterexample: the OCR language is not a caller-supplied input.
On a request in which the caller supplies `eng` through an
`ocr_language` form field, the field lands in the metadata dictionary as a
plain string while the extraction call is still made with the internally
fixed `bul+eng`, and never with `eng`. -/
theorem ocr_language_not_caller_supplied_cex :
    lookupMeta (additionalData envLangField.form) "ocr_language" =
      some (MetaValue.plain "eng") ∧
    Event.runExtraction "bul+eng" ∈ (process_rfil_workflow envLangField).2 ∧
    Event.runExtraction "eng" ∉ (process_rfil_workflow envLangField).2 :=
  ⟨rfl, by decide, by decide⟩

/-- C7, amended: the OCR language is fixed internally by the endpoint —
every invocation of the extraction routine uses the hardcoded language
set `bul+eng`, whatever the caller sent. -/
theorem ocr_language_fixed_internally (env : Env) (lang : String)
    (h : Event.runExtraction lang ∈ (process_rfil_workflow env).2) :
    lang = "bul+eng" := by
  obtain ⟨fn, form, parse, fid, ex, rm⟩ := env
  by_cases hpdf : isPdfName fn = false
  · simp [process_rfil_workflow, hpdf] at h
  · cases parse with
    | pdfReadError => simp [process_rfil_workflow, hpdf] at h
    | ok pages probe =>
      by_cases hl : pages.length < 1
      · simp [process_rfil_workflow, hpdf, hl] at h
      · cases probe with
        | pdfReadError => simp [process_rfil_workflow, hpdf, hl] at h
        | ok =>
          cases ex with
          | raises msg => simpa [process_rfil_workflow, hpdf, hl] using h
          | ok =>
            cases rm with
            | raises msg =>
              simpa [process_rfil_workflow, hpdf, hl] using h
            | ok => simpa [process_rfil_workflow, hpdf, hl] using h

/-- Witness for the fixed-language theorem at the request that supplies a
language form field. -/
theorem ocr_language_fixed_internally_witness : "bul+eng" = "bul+eng" :=
  ocr_language_fixed_internally envLangField "bul+eng" (by decide)

/-- C8, counterexample: a failed removal of the Transient Store location
is escalated, not swallowed.  On a request where processing succeeded but
`os.remove` raises, the handler answers 500 instead of the success
response. -/
theorem removal_failure_escalates_cex :
    statusCode (process_rfil_workflow envRemovalRaises).1 = 500 := by
  decide

/-- C8, amended: if removing the Transient Store location fails after
processing has otherwise succeeded, the exception propagates to the
generic handler and the request returns the 500 error response carrying
the exception text — the failed release is escalated into an error
response, not folded into a success. -/
theorem removal_failure_returns_500 (env : Env) (pages : List Page)
    (msg : String)
    (hext : isPdfName env.filename = true)
    (hparse : env.parse = .ok pages .ok)
    (hnp : pages ≠ [])
    (hex : env.extraction = .ok)
    (hrm : env.removal = .raises msg) :
    (process_rfil_workflow env).1 =
      .errorJson 500 ("An error occurred: " ++ msg) := by
  obtain ⟨fn, form, parse, fid, ex, rm⟩ := env
  subst hparse hex hrm
  have hl : ¬ pages.length < 1 := by
    simp [Nat.lt_one_iff, List.length_eq_zero, hnp]
  simp [process_rfil_workflow, hext, hl]

/-- Witness for the escalated-removal theorem at the concrete request
whose removal raises `permission denied`. -/
theorem removal_failure_returns_500_witness :
    (process_rfil_workflow envRemovalRaises).1 =
      .errorJson 500 ("An error occurred: " ++ "permission denied") :=
  removal_failure_returns_500 envRemovalRaises [pageLong, pageScan]
    "permission denied" (by decide) rfl (by decide) rfl rfl

/-- C9, counterexample: under the spec's extraction contract a page whose
native text layer is non-empty but shorter than the usability threshold
is still routed through OCR, so a PDF whose every page has a native,
non-empty text layer can invoke OCR. -/
theorem short_text_page_routed_to_ocr_cex :
    pageShort.nativeText ≠ "" ∧
    (process_pdf_end_to_end [pageShort] "bul+eng").page_results.map
      PageResult.method = ["ocr"] :=
  ⟨by decide, by decide⟩

/-- C9, amended: the method of each page follows the usability-threshold
rule — a page whose native text is empty or shorter than the threshold is
routed through OCR (method tag `ocr`), and a page whose native text meets
the threshold keeps native extraction (method tag `native`); in
particular a page with an empty text layer is always tagged `ocr`, and a
PDF whose every page meets the threshold never invokes OCR. -/
theorem page_method_follows_threshold_rule (pages : List Page)
    (lang : String) :
    (process_pdf_end_to_end pages lang).page_results.map PageResult.method =
      pages.map (fun p => if needsOcr p then "ocr" else "native") := by
  simp [process_pdf_end_to_end, extractPages_map_method]

/-- A dictionary assignment at a key other than `n` leaves the lookup at
`n` unchanged. -/
theorem lookupMeta_upsert_ne (acc : List (String × MetaValue))
    (k n : String) (v : MetaValue) (hkn : k ≠ n) :
    lookupMeta (upsert acc k v) n = lookupMeta acc n := by
  induction acc with
  | nil => simp [upsert, lookupMeta, hkn]
  | cons q rest ih =>
    obtain ⟨qk, qv⟩ := q
    by_cases hq : qk = k
    · subst hq
      simp [upsert, lookupMeta, hkn]
    · simp [upsert, hq, lookupMeta, ih]

/-- A dictionary assignment at the key `n` makes the lookup at `n` yield
the assigned value. -/
theorem lookupMeta_upsert_self (acc : List (String × MetaValue))
    (n : String) (v : MetaValue) :
    lookupMeta (upsert acc n v) n = some v := by
  induction acc with
  | nil => simp [upsert, lookupMeta]
  | cons q rest ih =>
    obtain ⟨qk, qv⟩ := q
    by_cases hq : qk = n
    · subst hq
      simp [upsert, lookupMeta]
    · simp [upsert, hq, lookupMeta, ih]

/-- Folding the form loop over fields not named `n` leaves the lookup at
`n` unchanged. -/
theorem lookupMeta_foldl_not_field (form : List (String × FormEntry))
    (n : String) :
    ∀ acc, n ∉ form.map Prod.fst →
      lookupMeta (form.foldl addField acc) n = lookupMeta acc n := by
  induction form with
  | nil => intro acc _; rfl
  | cons f rest ih =>
    intro acc h
    obtain ⟨fk, fe⟩ := f
    simp only [List.map_cons, List.mem_cons] at h
    push_neg at h
    rw [List.foldl_cons, ih _ h.2]
    cases fe with
    | file => rfl
    | text v loads =>
      simp only [addField]
      by_cases hr : fk = "rfil"
      · simp [hr]
      · simp only [hr, if_false]
        exact lookupMeta_upsert_ne _ _ _ _ (Ne.symm h.1)

/-- C6: on a successful request, every extra string form field distinct
from `rfil` is returned in the response metadata — as the parsed
structured value when its text parses as JSON, and as the original plain
string unchanged when it does not. -/
theorem metadata_parsed_or_plain (env : Env) (pages : List Page)
    (n v : String) (out : Option PyJson)
    (hext : isPdfName env.filename = true)
    (hparse : env.parse = .ok pages .ok)
    (hnp : pages ≠ [])
    (hex : env.extraction = .ok)
    (hrm : env.removal = .ok)
    (hnodup : (env.form.map Prod.fst).Nodup)
    (hmem : (n, FormEntry.text v out) ∈ env.form)
    (hn : n ≠ "rfil") :
    ∃ body, (process_rfil_workflow env).1 = .success body ∧
      ∃ md, body.additional_data = some md ∧
        lookupMeta md n = some (metaOfLoads v out) := by
  obtain ⟨fn, form, parse, fid, ex, rm⟩ := env
  subst hparse hex hrm
  have hl : ¬ pages.length < 1 := by
    simp [Nat.lt_one_iff, List.length_eq_zero, hnp]
  obtain ⟨pre, post, rfl⟩ := List.append_of_mem hmem
  rw [List.map_append, List.map_cons, List.nodup_append] at hnodup
  obtain ⟨-, hpost, -⟩ := hnodup
  have hpostn : n ∉ post.map Prod.fst := (List.nodup_cons.mp hpost).1
  have hlook :
      lookupMeta (additionalData (pre ++ (n, FormEntry.text v out) :: post)) n
        = some (metaOfLoads v out) := by
    unfold additionalData
    rw [List.foldl_append, List.foldl_cons,
      lookupMeta_foldl_not_field post n _ hpostn]
    simp only [addField, hn, if_false]
    exact lookupMeta_upsert_self _ _ _
  have hne : additionalData (pre ++ (n, FormEntry.text v out) :: post) ≠ [] := by
    intro h0
    rw [h0] at hlook
    exact Option.noConfusion hlook
  have hadopt :
      adOption (pre ++ (n, FormEntry.text v out) :: post) =
        some (additionalData (pre ++ (n, FormEntry.text v out) :: post)) := by
    unfold adOption
    cases hD : additionalData (pre ++ (n, FormEntry.text v out) :: post) with
    | nil => exact absurd hD hne
    | cons a l => rfl
  exact ⟨{ statusStr := "success"
           message := "PDF file has been processed successfully"
           filename := fn
           file_id := fid
           pages := pages.length
           process_results := process_pdf_end_to_end pages "bul+eng"
           additional_data :=
             adOption (pre ++ (n, FormEntry.text v out) :: post) },
    by simp [process_rfil_workflow, hext, hl],
    additionalData (pre ++ (n, FormEntry.text v out) :: post), hadopt, hlook⟩

/-- Witness for the metadata theorem at the well-behaved request: the
JSON-parseable `tags` field comes back as the parsed array, and the
non-parseable `department` field comes back as the plain string. -/
theorem metadata_parsed_or_plain_witness :
    (∃ body, (process_rfil_workflow envOk).1 = Response.success body ∧
      ∃ md, body.additional_data = some md ∧
        lookupMeta md "tags" =
          some (MetaValue.parsed
            (PyJson.jarray [PyJson.number 1, PyJson.number 2]))) ∧
    (∃ body, (process_rfil_workflow envOk).1 = Response.success body ∧
      ∃ md, body.additional_data = some md ∧
        lookupMeta md "department" = some (MetaValue.plain "ops")) :=
  ⟨metadata_parsed_or_plain envOk [pageLong, pageScan] "tags" "[1, 2]"
      (some (PyJson.jarray [PyJson.number 1, PyJson.number 2]))
      (by decide) rfl (by decide) rfl rfl (by decide)
      (by simp [envOk]) (by decide),
   metadata_parsed_or_plain envOk [pageLong, pageScan] "department" "ops"
      none (by decide) rfl (by decide) rfl rfl (by decide)
      (by simp [envOk]) (by decide)⟩

end Haiper
